import Mathlib

/-!
Shallow embedding of the slog logging library (dispatch core, file handler,
buffered handler, writer configuration) and proofs about the behaviour its
specification describes.

Conventions of the embedding:
* Go byte slices are `List Nat`; Go strings are `String`; `error` values are
  `Option String` (`none` = nil).
* Go maps that may be nil are `Option (List (String × String))`: `none` models
  a nil map, `some []` an allocated empty map.
* `time.Time` is a `Nat` tick count, with `emptyTime = 0` the zero value.
* Stateful methods become explicit state-passing functions; the result pairs
  the returned `error` with the updated state.
* Underlying I/O faults (a sink refusing a write, `Sync` failing, `Close`
  failing) are injected through explicit `Option String` fields of the state,
  so that error-propagation paths of the source are exercised; the byte-moving
  logic itself is deterministic.
-/

namespace Slog

/-- Go `error` values: `none` is nil. -/
abbrev Err := Option String

/-- Go maps (`slog.M`) that may be nil: `none` models a nil map. -/
abbrev GoMap := Option (List (String × String))

/-- The zero `time.Time` (`emptyTime` in the source). -/
def emptyTime : Nat := 0

/-- `Level.String()` of the source, restricted to the level numbers used by
gookit/slog (100 panic .. 800 trace); other numbers render "unknown". -/
def levelString (lv : Nat) : String :=
  if lv = 100 then "PANIC"
  else if lv = 200 then "FATAL"
  else if lv = 300 then "ERROR"
  else if lv = 400 then "WARNING"
  else if lv = 500 then "NOTICE"
  else if lv = 600 then "INFO"
  else if lv = 700 then "DEBUG"
  else if lv = 800 then "TRACE"
  else "unknown"

/-- `slog.Record` (record.go): one log event.  Pointer-valued fields
(`Ctx`, `Caller`) are `Option Nat` handles, `none` when nil. -/
structure Record where
  level : Nat
  levelName : String
  channel : String
  message : String
  time : Nat
  ctx : Option Nat
  fields : GoMap
  data : GoMap
  extra : GoMap
  caller : Option Nat
  callerSkip : Nat
  formatted : List Nat
  deriving DecidableEq, Repr

/-- The record produced by `newRecord(logger)`: zero value except the
allocated (empty, non-nil) `Fields` map. -/
def newRecordInit : Record :=
  { level := 0, levelName := "", channel := "", message := "", time := emptyTime
  , ctx := none, fields := some [], data := none, extra := none, caller := none
  , callerSkip := 0, formatted := [] }

/-- The logger options that `releaseRecord` reads. -/
structure LoggerOpts where
  callerSkip : Nat
  deriving DecidableEq, Repr

/-- `Logger.releaseRecord` (logger.go): the reset applied to a record before
it is put back into the pool.  Exactly the assignments of the source: `Time`,
`Data`, `Extra`, `Fields` are cleared and `CallerSkip` is restored; no other
field is touched. -/
def releaseRecord (l : LoggerOpts) (r : Record) : Record :=
  { r with time := emptyTime, data := none, extra := none, fields := none
         , callerSkip := l.callerSkip }

/-- `Record.log` (record.go): stamp level, level name and message on the
record (the dispatch to `logger.write` is outside this embedding). -/
def Record.logSet (r : Record) (lv : Nat) (msg : String) : Record :=
  { r with level := lv, levelName := levelString lv, message := msg }

/-- `Logger.log` (logger.go), viewed from the pool: the acquired record has
its `CallerSkip` bumped, is stamped by `Record.log`, and is then released;
the result is the record as it re-enters the pool. -/
def logCycle (l : LoggerOpts) (r : Record) (lv : Nat) (msg : String) : Record :=
  releaseRecord l (Record.logSet { r with callerSkip := r.callerSkip + 1 } lv msg)

/-- The reset state claimed for a pooled record: every mutable field
(level, level name, message, time, fields, data, extra, context, caller info)
at its empty value. -/
def fullyReset (r : Record) : Prop :=
  r.level = 0 ∧ r.levelName = "" ∧ r.message = "" ∧ r.time = emptyTime ∧
  r.fields = none ∧ r.data = none ∧ r.extra = none ∧ r.ctx = none ∧
  r.caller = none

instance (r : Record) : Decidable (fullyReset r) := by
  unfold fullyReset; infer_instance

/-- `Logger.LastErr` (logger.go): return the recorded error and clear it.
The state is the logger's `err` field. -/
def lastErr (e : Err) : Err × Err := (e, none)

/-!  ## Record pool identity model (logger.go)

Records are identified by allocation numbers.  The pool is the multiset of
identities currently available for reuse (`sync.Pool` modelled as a stack;
`Get` on an empty pool allocates a fresh identity, as does Go's `&Record{}`
literal inside `Record.WithFields`). -/

/-- Pool state of one logger: identities in the pool, next fresh identity. -/
structure PoolSt where
  pool : List Nat
  next : Nat
  deriving DecidableEq, Repr

/-- `Logger.newRecord`: `recordPool.Get()` — reuse a pooled identity or
allocate a fresh one. -/
def poolGet (l : PoolSt) : Nat × PoolSt :=
  match l.pool with
  | r :: rest => (r, { l with pool := rest })
  | [] => (l.next, { pool := [], next := l.next + 1 })

/-- `Logger.releaseRecord`: `recordPool.Put(r)` (the field reset is modelled
by `releaseRecord` above; here only the identity matters). -/
def poolPut (l : PoolSt) (r : Nat) : PoolSt := { l with pool := r :: l.pool }

/-- `Record{}` literal inside `Record.WithFields` (record.go): a fresh
record object, never taken from the pool. -/
def allocFresh (l : PoolSt) : Nat × PoolSt :=
  (l.next, { l with next := l.next + 1 })

/-- `Logger.Record()` (logger.go): acquire, defer-release, return the same
record.  Result: (identity handed to the caller, resulting pool state). -/
def loggerRecord (l : PoolSt) : Nat × PoolSt :=
  let a := poolGet l
  (a.1, poolPut a.2 a.1)

/-- `Logger.WithContext` (logger.go): acquire, defer-release, return
`r.WithContext(ctx)` — `Record.WithContext` mutates and returns the same
record, so the caller receives the pooled identity. -/
def loggerWithContext (l : PoolSt) : Nat × PoolSt :=
  loggerRecord l

/-- `Logger.WithField` / `Logger.WithFields` (logger.go): acquire `r`,
defer-release `r`, return `r.WithFields(...)` — which (record.go) builds a
fresh `&Record{...}` object, so the caller receives a fresh identity while
the pooled `r` is released. -/
def loggerWithField (l : PoolSt) : Nat × PoolSt :=
  let a := poolGet l
  let b := allocFresh a.2
  (b.1, poolPut b.2 a.1)

/-!  ## Handler fan-out (logger.go): `VisitAll`, `flushAll`, `Close` -/

/-- A registered handler, by its position identity and the outcome its
`Flush()` / `Close()` would report. -/
structure FanHandler where
  id : Nat
  flushErr : Err
  closeErr : Err
  deriving DecidableEq, Repr

/-- Operations observed on handlers during a fan-out. -/
inductive HOp where
  | flush (id : Nat)
  | close (id : Nat)
  deriving DecidableEq, Repr

/-- `Logger.VisitAll` (logger.go): run `fn` on each handler in registration
order, stopping at the first handler for which `fn` returns a non-nil
error.  `σ` threads the logger state the closure mutates. -/
def visitAll {σ : Type} (fn : FanHandler → σ → σ × Err) :
    List FanHandler → σ → σ × Err
  | [], s => (s, none)
  | h :: t, s =>
    let a := fn h s
    match a.2 with
    | some er => (a.1, some er)
    | none => visitAll fn t a.1

/-- The closure of `Logger.flushAll` (logger.go): call `handler.Flush()`;
on error overwrite `l.err`; always return nil so iteration continues.
State: (`l.err`, trace of operations performed). -/
def flushStep (h : FanHandler) (s : Err × List HOp) : (Err × List HOp) × Err :=
  let e := match h.flushErr with
    | some er => some er
    | none => s.1
  ((e, s.2 ++ [HOp.flush h.id]), none)

/-- `Logger.flushAll` (logger.go): visit every handler with `flushStep`.
Result: (final `l.err`, trace). -/
def flushAll (err0 : Err) (hs : List FanHandler) : Err × List HOp :=
  (visitAll flushStep hs (err0, [])).1

/-- The closure of `Logger.Close` (logger.go): call `handler.Close()`;
on error overwrite `l.err`; always return nil. -/
def closeStep (h : FanHandler) (s : Err × List HOp) : (Err × List HOp) × Err :=
  let e := match h.closeErr with
    | some er => some er
    | none => s.1
  ((e, s.2 ++ [HOp.close h.id]), none)

/-- `Logger.Close` (logger.go): visit every handler with `closeStep` and
return the final `l.err` together with the trace. -/
def closeAll (err0 : Err) (hs : List FanHandler) : Err × List HOp :=
  (visitAll closeStep hs (err0, [])).1

/-- The value left in an overwrite-on-each-error cell after the errors `es`
land in order, starting from `e0`. -/
def lastOr (es : List String) (e0 : Err) : Err :=
  match es with
  | [] => e0
  | e :: rest => lastOr rest (some e)

/-!  ## Writer construction from `handler.Config` (handler/config.go) -/

/-- The writers `Config.CreateWriter` can produce. -/
inductive WKind where
  | rotating (path : String)
  | plain (path : String)
  deriving DecidableEq, Repr

/-- A built writer: the underlying kind and whether it was wrapped in a
buffer (`BuffSize > 0`), with the buffer mode used for the wrap. -/
structure BuiltWriter where
  kind : WKind
  buffered : Bool
  buffMode : String
  deriving DecidableEq, Repr

/-- The fields of `handler.Config` that writer construction reads. -/
structure Config where
  logfile : String
  maxSize : Nat
  rotateTime : Nat
  buffSize : Nat
  buffMode : String
  deriving DecidableEq, Repr

/-- Error text of `Config.RotateWriter` when both triggers are zero. -/
def errBothZero : String :=
  "slog: cannot create rotate writer, MaxSize and RotateTime both is 0"

/-- Error text of `Config.CreateWriter` when the logfile path is missing. -/
def errNoLogfile : String :=
  "slog: logfile cannot be empty for create writer"

/-- `Config.CreateWriter` (handler/config.go): validate the path, open a
rotating writer (when a rotation trigger is set) or a plain file, then wrap
in a buffer when `BuffSize > 0`.  The second component lists the file paths
physically opened by the call. -/
def Config.createWriter (c : Config) : Except String BuiltWriter × List String :=
  if c.logfile = "" then (Except.error errNoLogfile, [])
  else
    let k := if 0 < c.maxSize ∨ 0 < c.rotateTime then WKind.rotating c.logfile
             else WKind.plain c.logfile
    (Except.ok { kind := k, buffered := 0 < c.buffSize, buffMode := c.buffMode },
     [c.logfile])

/-- `Config.RotateWriter` (handler/config.go): reject the configuration with
both rotation triggers disabled, otherwise defer to `CreateWriter`. -/
def Config.rotateWriter (c : Config) : Except String BuiltWriter × List String :=
  if c.maxSize = 0 ∧ c.rotateTime = 0 then (Except.error errBothZero, [])
  else c.createWriter

/-!  ## File handles of `FileHandler` (handler/file.go) -/

/-- Operating-system view: which (handle, path) pairs are open, and the next
handle number `openFile` would hand out. -/
structure FsSt where
  openh : List (Nat × String)
  nexth : Nat
  deriving DecidableEq, Repr

/-- `openFile` (handler/file.go): open (creating as needed) the file at the
path, yielding a fresh OS handle. -/
def fsOpen (fs : FsSt) (p : String) : FsSt × Nat :=
  ({ openh := fs.openh ++ [(fs.nexth, p)], nexth := fs.nexth + 1 }, fs.nexth)

/-- `os.File.Close` on one handle. -/
def fsClose (fs : FsSt) (h : Nat) : FsSt :=
  { fs with openh := fs.openh.filter (fun q => q.1 ≠ h) }

/-- Number of OS handles currently open for a path. -/
def openCount (fs : FsSt) (p : String) : Nat :=
  (fs.openh.filter (fun q => q.2 = p)).length

/-- The handle bookkeeping of a `FileHandler`: its path and current handle. -/
structure FileHandle where
  fpath : String
  file : Nat
  deriving DecidableEq, Repr

/-- `NewFileHandler` (handler/file.go), handle view: open the path once and
store the handle. -/
def newFileHandler (fs : FsSt) (p : String) : FsSt × FileHandle :=
  let a := fsOpen fs p
  (a.1, { fpath := p, file := a.2 })

/-- `FileHandler.ReopenFile` (handler/file.go): open the path again and
overwrite `h.file` with the new handle.  The source never closes the
previous handle. -/
def reopenFile (fs : FsSt) (h : FileHandle) : FsSt × FileHandle :=
  let a := fsOpen fs h.fpath
  (a.1, { h with file := a.2 })

/-!  ## `FileHandler` byte state: Flush and Close (handler/file.go)

`bufio : Option (List Nat)` is the handler's `h.bufio` field: `none` while
nil (no buffered write has happened yet), `some b` once allocated.
`writeErr` injects failure of draining the bufio buffer into the file,
`syncErr` failure of `file.Sync()`, `closeErr` failure of `file.Close()`. -/

structure FileSt where
  bufio : Option (List Nat)
  fileBytes : List Nat
  closed : Bool
  writeErr : Err
  syncErr : Err
  closeErr : Err
  deriving DecidableEq, Repr

/-- `FileHandler.Flush` (handler/file.go): drain `h.bufio` into the file if
the buffer exists (returning early on a drain error, with the buffer
retained), then `file.Sync()`. -/
def fhFlush (st : FileSt) : Err × FileSt :=
  match st.bufio with
  | some b =>
    if b = [] then
      match st.syncErr with
      | some e => (some e, st)
      | none => (none, st)
    else
      match st.writeErr with
      | some e => (some e, st)
      | none =>
        let st1 := { st with bufio := some [], fileBytes := st.fileBytes ++ b }
        match st.syncErr with
        | some e => (some e, st1)
        | none => (none, st1)
  | none =>
    match st.syncErr with
    | some e => (some e, st)
    | none => (none, st)

/-- `FileHandler.Close` (handler/file.go): `Flush()` first; on a flush error
return it at once (the file stays open); otherwise `file.Close()`. -/
def fhClose (st : FileSt) : Err × FileSt :=
  let a := fhFlush st
  match a.1 with
  | some er => (some er, a.2)
  | none => (a.2.closeErr, { a.2 with closed := true })

/-!  ## `BufferedHandler` (bufferedhandler source file) and `bufio.Writer`

`bufio.Writer.Write` semantics (Go standard library): while the incoming
bytes do not fit in the remaining buffer space — write them straight to the
sink when the buffer is empty (large write), otherwise fill the buffer to
capacity and flush it; finally copy what is left into the buffer.  The
recursion is bounded by a fuel argument; `bufioWrite` supplies fuel that the
recursion can never exhaust (each step consumes input bytes or empties a
non-empty buffer). -/

/-- One `bufio.Writer.Write` call: from capacity `size`, buffer contents
`buf` and incoming bytes `p`, produce (final buffer contents, bytes emitted
to the sink during the call, in order). -/
def bufioWriteF : Nat → Nat → List Nat → List Nat → List Nat × List Nat
  | 0, _, buf, p => (buf ++ p, [])
  | fuel + 1, size, buf, p =>
    if p.length ≤ size - buf.length then (buf ++ p, [])
    else if buf.length = 0 then ([], p)
    else
      let n := size - buf.length
      let a := bufioWriteF fuel size [] (p.drop n)
      (a.1, buf ++ (p.take n ++ a.2))

/-- `bufio.Writer.Write` with always-sufficient fuel. -/
def bufioWrite (size : Nat) (buf p : List Nat) : List Nat × List Nat :=
  bufioWriteF (buf.length + p.length + 1) size buf p

/-- State of a `BufferedHandler`: configured `BuffSize`, bufio buffer
contents, bytes already received by the wrapped handler's writer, injected
faults for draining the buffer (`writeErr`), for the wrapped handler's
`Flush()` (`innerFlushErr`) and `Close()` (`innerCloseErr`). -/
structure BufSt where
  size : Nat
  buf : List Nat
  sink : List Nat
  writeErr : Err
  innerFlushErr : Err
  innerCloseErr : Err
  closed : Bool
  deriving DecidableEq, Repr

/-- `BufferedHandler.Flush`: `h.buffer.Flush()` (drain the bufio buffer to
the wrapped writer, returning early on error with the buffer retained),
then `h.handler.Flush()`. -/
def bhFlush (st : BufSt) : Err × BufSt :=
  if st.buf = [] then
    match st.innerFlushErr with
    | some e => (some e, st)
    | none => (none, st)
  else
    match st.writeErr with
    | some e => (some e, st)
    | none =>
      let st1 := { st with buf := [], sink := st.sink ++ st.buf }
      match st.innerFlushErr with
      | some e => (some e, st1)
      | none => (none, st1)

/-- `BufferedHandler.Close`: `Flush()` first; on a flush error return it at
once (the wrapped handler stays open); otherwise `h.handler.Close()`. -/
def bhClose (st : BufSt) : Err × BufSt :=
  let a := bhFlush st
  match a.1 with
  | some er => (some er, a.2)
  | none => (a.2.innerCloseErr, { a.2 with closed := true })

/-- `BufferedHandler.Handle` (formatting aside, the formatted bytes `bts`
are the input): `h.buffer.Write(bts)`, then `h.Flush()` when the buffer
occupancy has reached `h.BuffSize`.  The sink is modelled as accepting
writes issued from inside `bufio.Writer.Write`; fault injection applies to
the explicit flush path. -/
def bhHandle (st : BufSt) (bts : List Nat) : Err × BufSt :=
  let a := bufioWrite st.size st.buf bts
  let st1 := { st with buf := a.1, sink := st.sink ++ a.2 }
  if st.size ≤ a.1.length then bhFlush st1 else (none, st1)

/-!  ## Theorems -/

/-- C1 (counterexample): releasing a record after a logging call does NOT
reset every mutable field — a record logged with level 300 and message
"boom" re-enters the pool with its level, level name and message intact,
refuting the claimed full reset. -/
theorem releaseRecord_not_full_reset :
    ¬ fullyReset (logCycle ⟨3⟩ newRecordInit 300 "boom") := by
  decide

/-- C1 (amended): after a leveled logging call the record re-enters the pool
with time, fields, data and extra reset to their empty values and the caller
skip restored to the logger's configured value; its level, level name,
message, context handle and caller frame are NOT reset and retain the values
from the call. -/
theorem releaseRecord_resets_data_only (l : LoggerOpts) (r : Record)
    (lv : Nat) (msg : String) :
    (logCycle l r lv msg).time = emptyTime ∧
    (logCycle l r lv msg).fields = none ∧
    (logCycle l r lv msg).data = none ∧
    (logCycle l r lv msg).extra = none ∧
    (logCycle l r lv msg).callerSkip = l.callerSkip ∧
    (logCycle l r lv msg).level = lv ∧
    (logCycle l r lv msg).levelName = levelString lv ∧
    (logCycle l r lv msg).message = msg ∧
    (logCycle l r lv msg).ctx = r.ctx ∧
    (logCycle l r lv msg).caller = r.caller := by
  simp [logCycle, releaseRecord, Record.logSet]

/-- C2 (code bug evaluation): constructing a `FileHandler` for "app.log" and
then calling `ReopenFile` leaves TWO handles open for that path, because
`ReopenFile` replaces `h.file` without closing the previous handle —
violating the at-most-one-open-handle invariant. -/
theorem reopenFile_leaks_handle :
    openCount (reopenFile (newFileHandler ⟨[], 0⟩ "app.log").1
        (newFileHandler ⟨[], 0⟩ "app.log").2).1 "app.log" = 2 := by
  decide

/-- C3: `LastErr` returns the recorded error, and an immediately following
`LastErr` (with no error recorded in between) returns nil. -/
theorem lastErr_reads_once (e : Err) :
    (lastErr e).1 = e ∧ (lastErr (lastErr e).2).1 = none :=
  ⟨rfl, rfl⟩

/-- C7: `Config.RotateWriter` with both rotation triggers at zero fails with
the both-zero configuration error before any file is opened, and
`Config.CreateWriter` with an empty logfile path fails with the missing-path
error before any file is opened. -/
theorem writer_config_errors (c : Config) :
    (c.maxSize = 0 ∧ c.rotateTime = 0 →
      Config.rotateWriter c = (Except.error errBothZero, [])) ∧
    (c.logfile = "" →
      Config.createWriter c = (Except.error errNoLogfile, [])) := by
  constructor
  · intro h
    simp [Config.rotateWriter, h.1, h.2]
  · intro h
    simp [Config.createWriter, h]

theorem visitAll_flushStep_eq (hs : List FanHandler) (err0 : Err)
    (tr : List HOp) :
    (visitAll flushStep hs (err0, tr)).1 =
      (lastOr (hs.filterMap (fun h => h.flushErr)) err0,
       tr ++ hs.map (fun h => HOp.flush h.id)) := by
  induction hs generalizing err0 tr with
  | nil => simp [visitAll, lastOr]
  | cons h t ih =>
    cases hf : h.flushErr with
    | none => simp [visitAll, flushStep, hf, ih, lastOr]
    | some er => simp [visitAll, flushStep, hf, ih, lastOr]

theorem visitAll_closeStep_eq (hs : List FanHandler) (err0 : Err)
    (tr : List HOp) :
    (visitAll closeStep hs (err0, tr)).1 =
      (lastOr (hs.filterMap (fun h => h.closeErr)) err0,
       tr ++ hs.map (fun h => HOp.close h.id)) := by
  induction hs generalizing err0 tr with
  | nil => simp [visitAll, lastOr]
  | cons h t ih =>
    cases hc : h.closeErr with
    | none => simp [visitAll, closeStep, hc, ih, lastOr]
    | some er => simp [visitAll, closeStep, hc, ih, lastOr]

theorem lastOr_eq_getLast (es : List String) (e0 : Err) (hne : es ≠ []) :
    lastOr es e0 = es.getLast? := by
  induction es generalizing e0 with
  | nil => exact absurd rfl hne
  | cons e rest ih =>
    cases rest with
    | nil => simp [lastOr]
    | cons b t =>
      rw [List.getLast?_cons_cons]
      exact ih (some e) (List.cons_ne_nil b t)

/-- C5: `Flush()` and `Close()` invoke the corresponding operation on every
registered handler in registration order — unconditionally, so a handler's
error (recorded, not propagated) never prevents the operation from reaching
the handlers registered after it. -/
theorem fanout_visits_every_handler (err0 : Err) (hs : List FanHandler) :
    (flushAll err0 hs).2 = hs.map (fun h => HOp.flush h.id) ∧
    (closeAll err0 hs).2 = hs.map (fun h => HOp.close h.id) := by
  constructor
  · rw [flushAll, visitAll_flushStep_eq]; simp
  · rw [closeAll, visitAll_closeStep_eq]; simp

/-- C4: when at least two handlers fail during a flush (resp. close)
fan-out, the logger is left holding exactly the error of the last failing
handler in registration order; the earlier errors of the same fan-out are
overwritten. -/
theorem fanout_keeps_last_error (err0 : Err) (hs : List FanHandler)
    (hf : 2 ≤ (hs.filterMap (fun h => h.flushErr)).length)
    (hc : 2 ≤ (hs.filterMap (fun h => h.closeErr)).length) :
    (flushAll err0 hs).1 = (hs.filterMap (fun h => h.flushErr)).getLast? ∧
    (closeAll err0 hs).1 = (hs.filterMap (fun h => h.closeErr)).getLast? := by
  constructor
  · rw [flushAll, visitAll_flushStep_eq]
    refine lastOr_eq_getLast _ _ (fun h => ?_)
    rw [h] at hf
    exact absurd hf (by decide)
  · rw [closeAll, visitAll_closeStep_eq]
    refine lastOr_eq_getLast _ _ (fun h => ?_)
    rw [h] at hc
    exact absurd hc (by decide)

/-- C4 (witness): with two failing handlers, the flush fan-out retains the
second flush error and the close fan-out the second close error. -/
theorem fanout_keeps_last_error_witness :
    (flushAll none [⟨1, some "e1", some "c1"⟩, ⟨2, some "e2", some "c2"⟩]).1 =
      ([some "e1", some "e2"].filterMap id).getLast? ∧
    (closeAll none [⟨1, some "e1", some "c1"⟩, ⟨2, some "e2", some "c2"⟩]).1 =
      ([some "c1", some "c2"].filterMap id).getLast? := by
  have h := fanout_keeps_last_error none
      [⟨1, some "e1", some "c1"⟩, ⟨2, some "e2", some "c2"⟩]
      (by decide) (by decide)
  exact ⟨h.1.trans (by decide), h.2.trans (by decide)⟩

/-- C10 (counterexample): `Logger.WithField` does NOT release the record it
returns — starting from a pool holding record 7, the caller receives the
freshly allocated record 10, which is not in the pool; only the pooled
record 7 was released.  This refutes the claim for `WithField` (and
`WithFields`, which shares the same code path). -/
theorem withField_returns_unpooled :
    ¬ (loggerWithField ⟨[7], 10⟩).1 ∈ (loggerWithField ⟨[7], 10⟩).2.pool := by
  decide

/-- C10 (amended): `Record()` and `WithContext` hand the caller the very
record they release, so the returned record sits in the pool while the
caller holds it; `WithField`/`WithFields` release the record they acquired
(it re-enters the pool) but hand the caller a distinct freshly allocated
record that is not in the pool. -/
theorem record_methods_pool_aliasing (l : PoolSt)
    (hfresh : ∀ r ∈ l.pool, r < l.next) :
    (loggerRecord l).1 ∈ (loggerRecord l).2.pool ∧
    (loggerWithContext l).1 ∈ (loggerWithContext l).2.pool ∧
    (poolGet l).1 ∈ (loggerWithField l).2.pool ∧
    (loggerWithField l).1 ∉ (loggerWithField l).2.pool := by
  cases hp : l.pool with
  | nil =>
    refine ⟨?_, ?_, ?_, ?_⟩ <;>
      simp [loggerRecord, loggerWithContext, loggerWithField, poolGet,
        poolPut, allocFresh, hp]
  | cons r rest =>
    refine ⟨?_, ?_, ?_, ?_⟩ <;>
      simp [loggerRecord, loggerWithContext, loggerWithField, poolGet,
        poolPut, allocFresh, hp]
    constructor
    · have := hfresh r (by rw [hp]; exact List.mem_cons_self r rest)
      omega
    · intro hm
      have := hfresh l.next (by rw [hp]; exact List.mem_cons_of_mem r hm)
      omega

/-- C10 (witness): the aliasing facts at a concrete pool holding record 7
with next fresh identity 10. -/
theorem record_methods_pool_aliasing_witness :
    (loggerRecord ⟨[7], 10⟩).1 ∈ (loggerRecord ⟨[7], 10⟩).2.pool ∧
    (loggerWithContext ⟨[7], 10⟩).1 ∈ (loggerWithContext ⟨[7], 10⟩).2.pool ∧
    (poolGet ⟨[7], 10⟩).1 ∈ (loggerWithField ⟨[7], 10⟩).2.pool ∧
    (loggerWithField ⟨[7], 10⟩).1 ∉ (loggerWithField ⟨[7], 10⟩).2.pool :=
  record_methods_pool_aliasing ⟨[7], 10⟩ (by decide)

theorem bufioWriteF_conserves (fuel size : Nat) (buf p : List Nat) :
    (bufioWriteF fuel size buf p).2 ++ (bufioWriteF fuel size buf p).1 =
      buf ++ p := by
  induction fuel generalizing buf p with
  | zero => simp [bufioWriteF]
  | succ fuel ih =>
    by_cases h1 : p.length ≤ size - buf.length
    · simp [bufioWriteF, h1]
    · by_cases h2 : buf.length = 0
      · have hb : buf = [] := List.length_eq_zero.mp h2
        subst hb
        simp only [List.length_nil, Nat.sub_zero] at h1
        simp [bufioWriteF, h1]
      · have hrec := ih [] (p.drop (size - buf.length))
        simp only [List.nil_append] at hrec
        simp only [bufioWriteF, if_neg h1, if_neg h2]
        calc (buf ++ (p.take (size - buf.length) ++
                (bufioWriteF fuel size [] (p.drop (size - buf.length))).2)) ++
              (bufioWriteF fuel size [] (p.drop (size - buf.length))).1
            = buf ++ (p.take (size - buf.length) ++
                ((bufioWriteF fuel size [] (p.drop (size - buf.length))).2 ++
                 (bufioWriteF fuel size [] (p.drop (size - buf.length))).1)) := by
              simp [List.append_assoc]
          _ = buf ++ (p.take (size - buf.length) ++
                p.drop (size - buf.length)) := by rw [hrec]
          _ = buf ++ p := by rw [List.take_append_drop]

theorem bufioWriteF_fuel_irrel (f1 : Nat) :
    ∀ (f2 size : Nat) (buf p : List Nat),
      buf.length + p.length < f1 → buf.length + p.length < f2 →
      bufioWriteF f1 size buf p = bufioWriteF f2 size buf p := by
  induction f1 with
  | zero => intro f2 size buf p h1; omega
  | succ f1 ih =>
    intro f2 size buf p h1 h2
    cases f2 with
    | zero => omega
    | succ f2 =>
      by_cases hc1 : p.length ≤ size - buf.length
      · simp [bufioWriteF, hc1]
      · by_cases hc2 : buf.length = 0
        · simp [bufioWriteF, hc1, hc2]
        · have hm1 : ([] : List Nat).length +
              (p.drop (size - buf.length)).length < f1 := by
            simp [List.length_drop]; omega
          have hm2 : ([] : List Nat).length +
              (p.drop (size - buf.length)).length < f2 := by
            simp [List.length_drop]; omega
          simp only [bufioWriteF, if_neg hc1, if_neg hc2]
          rw [ih f2 size [] (p.drop (size - buf.length)) hm1 hm2]

theorem bufioWrite_conserves (size : Nat) (buf p : List Nat) :
    (bufioWrite size buf p).2 ++ (bufioWrite size buf p).1 = buf ++ p :=
  bufioWriteF_conserves _ size buf p

/-- C6 (counterexample): with capacity 4, a buffer already holding 3 bytes
and an incoming 3-byte write, `Handle` ends with occupancy 2 (below the
capacity) yet 4 bytes have reached the sink during the call — `bufio`
drained the buffer mid-write — refuting "if occupancy stays below C, no
bytes reach the sink during that call". -/
theorem bhHandle_below_capacity_writes_sink :
    ¬ ((bhHandle ⟨4, [1, 2, 3], [], none, none, none, false⟩ [4, 5, 6]).2.buf.length <
        (4 : Nat) →
       (bhHandle ⟨4, [1, 2, 3], [], none, none, none, false⟩ [4, 5, 6]).2.sink = []) := by
  decide

/-- C6 (amended): under a healthy sink, `Handle` moves the formatted bytes
through the bufio buffer without loss — afterwards, sink ++ buffer equals
the old sink ++ old buffer ++ written bytes — draining the buffer to the
sink whenever the bytes outgrow the remaining space (so bytes can reach the
sink even when the final occupancy is below capacity); if the post-write
occupancy reaches the capacity, a flush empties the buffer before `Handle`
returns, so the final occupancy is always below capacity. -/
theorem bhHandle_conserves (st : BufSt) (bts : List Nat) (hs : 0 < st.size)
    (hw : st.writeErr = none) (hf : st.innerFlushErr = none) :
    (bhHandle st bts).1 = none ∧
    (bhHandle st bts).2.sink ++ (bhHandle st bts).2.buf =
      st.sink ++ st.buf ++ bts ∧
    (bhHandle st bts).2.buf.length < st.size ∧
    (st.size ≤ (bufioWrite st.size st.buf bts).1.length →
      (bhHandle st bts).2.buf = []) := by
  have hcons := bufioWrite_conserves st.size st.buf bts
  by_cases hle : st.size ≤ (bufioWrite st.size st.buf bts).1.length
  · have hne : (bufioWrite st.size st.buf bts).1 ≠ [] := by
      intro h0
      rw [h0] at hle
      simp at hle
      omega
    refine ⟨?_, ?_, ?_, ?_⟩ <;>
      simp [bhHandle, bhFlush, hle, hne, hw, hf]
    · exact hcons
    · omega
  · refine ⟨?_, ?_, ?_, ?_⟩ <;>
      simp [bhHandle, bhFlush, hle, hw, hf]
    · exact hcons
    · omega

/-- C6 (witness): the byte-conservation facts at a concrete buffered state
and write. -/
theorem bhHandle_conserves_witness :
    (bhHandle ⟨4, [1, 2], [], none, none, none, false⟩ [9]).1 = none ∧
    (bhHandle ⟨4, [1, 2], [], none, none, none, false⟩ [9]).2.sink ++
        (bhHandle ⟨4, [1, 2], [], none, none, none, false⟩ [9]).2.buf =
      [] ++ [1, 2] ++ [9] ∧
    (bhHandle ⟨4, [1, 2], [], none, none, none, false⟩ [9]).2.buf.length < 4 :=
  have h := bhHandle_conserves ⟨4, [1, 2], [], none, none, none, false⟩ [9]
      (by decide) rfl rfl
  ⟨h.1, h.2.1, h.2.2.1⟩

theorem fhFlush_closed (st : FileSt) : ((fhFlush st).2).closed = st.closed := by
  cases hb : st.bufio with
  | none => cases hsy : st.syncErr <;> simp [fhFlush, hb, hsy]
  | some b =>
    by_cases hbe : b = [] <;>
      cases hw : st.writeErr <;> cases hsy : st.syncErr <;>
        simp [fhFlush, hb, hbe, hw, hsy]

theorem fhFlush_closeErr (st : FileSt) :
    ((fhFlush st).2).closeErr = st.closeErr := by
  cases hb : st.bufio with
  | none => cases hsy : st.syncErr <;> simp [fhFlush, hb, hsy]
  | some b =>
    by_cases hbe : b = [] <;>
      cases hw : st.writeErr <;> cases hsy : st.syncErr <;>
        simp [fhFlush, hb, hbe, hw, hsy]

theorem fhFlush_ok_fileBytes (st : FileSt) (h : (fhFlush st).1 = none) :
    ((fhFlush st).2).fileBytes = st.fileBytes ++ st.bufio.getD [] := by
  cases hb : st.bufio with
  | none => cases hsy : st.syncErr <;> simp [fhFlush, hb, hsy] at h ⊢
  | some b =>
    by_cases hbe : b = [] <;>
      cases hw : st.writeErr <;> cases hsy : st.syncErr <;>
        simp [fhFlush, hb, hbe, hw, hsy] at h ⊢

theorem bhFlush_closed (st : BufSt) : ((bhFlush st).2).closed = st.closed := by
  by_cases hbe : st.buf = [] <;>
    cases hw : st.writeErr <;> cases hif : st.innerFlushErr <;>
      simp [bhFlush, hbe, hw, hif]

theorem bhFlush_innerCloseErr (st : BufSt) :
    ((bhFlush st).2).innerCloseErr = st.innerCloseErr := by
  by_cases hbe : st.buf = [] <;>
    cases hw : st.writeErr <;> cases hif : st.innerFlushErr <;>
      simp [bhFlush, hbe, hw, hif]

theorem bhFlush_ok_sink (st : BufSt) (h : (bhFlush st).1 = none) :
    ((bhFlush st).2).sink = st.sink ++ st.buf := by
  by_cases hbe : st.buf = [] <;>
    cases hw : st.writeErr <;> cases hif : st.innerFlushErr <;>
      simp [bhFlush, hbe, hw, hif] at h ⊢

/-- C8: for the file handler and the buffered handler alike, `Close` first
performs a final `Flush`; if that flush fails, `Close` returns the flush
error and the underlying sink stays unclosed; if it succeeds, the buffered
bytes have reached the sink and only then is the sink closed (any close
error is the sink's own). -/
theorem close_implies_flush (sf : FileSt) (sb : BufSt) :
    (∀ e, (fhFlush sf).1 = some e →
      fhClose sf = (some e, (fhFlush sf).2) ∧
      ((fhFlush sf).2).closed = sf.closed) ∧
    ((fhFlush sf).1 = none →
      (fhClose sf).2.closed = true ∧
      (fhClose sf).2.fileBytes = sf.fileBytes ++ sf.bufio.getD [] ∧
      (fhClose sf).1 = sf.closeErr) ∧
    (∀ e, (bhFlush sb).1 = some e →
      bhClose sb = (some e, (bhFlush sb).2) ∧
      ((bhFlush sb).2).closed = sb.closed) ∧
    ((bhFlush sb).1 = none →
      (bhClose sb).2.closed = true ∧
      (bhClose sb).2.sink = sb.sink ++ sb.buf ∧
      (bhClose sb).1 = sb.innerCloseErr) := by
  refine ⟨fun e he => ⟨?_, fhFlush_closed sf⟩, fun h => ⟨?_, ?_, ?_⟩,
    fun e he => ⟨?_, bhFlush_closed sb⟩, fun h => ⟨?_, ?_, ?_⟩⟩
  · simp [fhClose, he]
  · simp [fhClose, h]
  · simp [fhClose, h]
    exact fhFlush_ok_fileBytes sf h
  · simp [fhClose, h, fhFlush_closeErr]
  · simp [bhClose, he]
  · simp [bhClose, h]
  · simp [bhClose, h]
    exact bhFlush_ok_sink sb h
  · simp [bhClose, h, bhFlush_innerCloseErr]

/-- C8 (witness): a failing flush makes `Close` return the flush error with
the file left open; a successful flush lets `Close` close the sink after
the buffered byte has reached it. -/
theorem close_implies_flush_witness :
    fhClose ⟨some [1], [], false, some "disk full", none, none⟩ =
      (some "disk full", ⟨some [1], [], false, some "disk full", none, none⟩) ∧
    (bhClose ⟨4, [5], [], none, none, none, false⟩).2.closed = true ∧
    (bhClose ⟨4, [5], [], none, none, none, false⟩).2.sink = [] ++ [5] :=
  have h := close_implies_flush
      ⟨some [1], [], false, some "disk full", none, none⟩
      ⟨4, [5], [], none, none, none, false⟩
  ⟨(h.1 "disk full" rfl).1, (h.2.2.2 rfl).1, (h.2.2.2 rfl).2.1⟩

/-- C9: for the file handler and the buffered handler alike, if a `Flush`
succeeds then an immediately following `Flush` with no intervening writes
leaves the state unchanged — no additional bytes reach the sink — and
returns no error. -/
theorem flush_flush_noop (sf : FileSt) (sb : BufSt) :
    ((fhFlush sf).1 = none →
      fhFlush ((fhFlush sf).2) = (none, (fhFlush sf).2)) ∧
    ((bhFlush sb).1 = none →
      bhFlush ((bhFlush sb).2) = (none, (bhFlush sb).2)) := by
  constructor
  · intro h
    cases hb : sf.bufio with
    | none => cases hsy : sf.syncErr <;> simp [fhFlush, hb, hsy] at h ⊢
    | some b =>
      by_cases hbe : b = [] <;>
        cases hw : sf.writeErr <;> cases hsy : sf.syncErr <;>
          simp [fhFlush, hb, hbe, hw, hsy] at h ⊢
  · intro h
    by_cases hbe : sb.buf = [] <;>
      cases hw : sb.writeErr <;> cases hif : sb.innerFlushErr <;>
        simp [bhFlush, hbe, hw, hif] at h ⊢

/-- C9 (witness): double flush on concrete healthy handler states. -/
theorem flush_flush_noop_witness :
    fhFlush ((fhFlush ⟨some [1, 2], [], false, none, none, none⟩).2) =
      (none, (fhFlush ⟨some [1, 2], [], false, none, none, none⟩).2) ∧
    bhFlush ((bhFlush ⟨4, [5], [], none, none, none, false⟩).2) =
      (none, (bhFlush ⟨4, [5], [], none, none, none, false⟩).2) :=
  ⟨(flush_flush_noop ⟨some [1, 2], [], false, none, none, none⟩
      ⟨4, [5], [], none, none, none, false⟩).1 rfl,
   (flush_flush_noop ⟨some [1, 2], [], false, none, none, none⟩
      ⟨4, [5], [], none, none, none, false⟩).2 rfl⟩

/-- C7 (witness): the configuration errors fire on the concrete empty
configuration. -/
theorem writer_config_errors_witness :
    Config.rotateWriter ⟨"", 0, 0, 0, "line"⟩ = (Except.error errBothZero, []) ∧
    Config.createWriter ⟨"", 0, 0, 0, "line"⟩ = (Except.error errNoLogfile, []) :=
  ⟨(writer_config_errors ⟨"", 0, 0, 0, "line"⟩).1 ⟨rfl, rfl⟩,
   (writer_config_errors ⟨"", 0, 0, 0, "line"⟩).2 rfl⟩

end Slog
